import Mathlib

/-!
Shallow embedding of the `nattes` message-queue repository (crates `nattes`
and `nattes-lib`): the subject model (publish subjects, subscribe patterns,
the matching predicate) and the broker core (registry, publish fanout,
unsubscribe, subscriber drop).

Rust strings are modelled as `List Char`; a subject/pattern token (one piece
of a dot-split string) is a `List Char`; message payloads are opaque and
modelled as `List Nat`.
-/

namespace Nattes

/-- A token of a dot-delimited subject: one piece of the split string. -/
abbrev Token := List Char

/-- A message payload (`bytes::Bytes` in the source), modelled opaquely. -/
abbrev Msg := List Nat

/-- The `*` wildcard token. -/
def starTok : Token := ['*']

/-- The `>` wildcard token. -/
def gtTok : Token := ['>']

/-- The NUL character, forbidden in all subjects. -/
def nulChar : Char := Char.ofNat 0

/-- Error type `NatsError` of both crates (`MpscError` carries a `SendError` payload in
Rust; the payload is irrelevant to control flow and dropped here). -/
inductive NatsError
  | InvalidPublishSubject
  | InvalidSubscribeSubject
  | MpscError
deriving DecidableEq, Repr

/-- Rust's `str::split('.')`: splitting on `.` always yields at least one
token; the empty string yields one empty token. -/
def splitDot : List Char → List Token
  | [] => [[]]
  | c :: rest =>
    if c = '.' then [] :: splitDot rest
    else
      match splitDot rest with
      | [] => [[c]]
      | t :: ts => (c :: t) :: ts

/-- Rust's `Vec::join(".")` on the token vector (used by `Display` and
`From<PublishSubject> for String`). -/
def joinDot : List Token → List Char
  | [] => []
  | [t] => t
  | t :: t2 :: ts => t ++ '.' :: joinDot (t2 :: ts)

/-- Struct `PublishSubject(Vec<String>)`. -/
structure PublishSubject where
  tokens : List Token
deriving DecidableEq, Repr

/-- Struct `SubscribeSubject(Vec<String>)`. -/
structure SubscribeSubject where
  tokens : List Token
deriving DecidableEq, Repr

/-- Parsing, `impl FromStr for PublishSubject` (identical in both crates): reject if
the string contains any of `*`, `>`, NUL, space; otherwise split on `.` and
keep the tokens verbatim. -/
def PublishSubject.fromStr (s : List Char) : Except NatsError PublishSubject :=
  if s.contains '*' || s.contains '>' || s.contains nulChar || s.contains ' ' then
    .error .InvalidPublishSubject
  else
    .ok ⟨splitDot s⟩

/-- Conversion, `impl From<PublishSubject> for SubscribeSubject` in crate `nattes`
(`impl Into<SubscribeSubject> for PublishSubject` in `nattes-lib`): the
token vector is reused unchanged. -/
def PublishSubject.toSubscribe (p : PublishSubject) : SubscribeSubject :=
  ⟨p.tokens⟩

/-- The token-validation loop of `impl FromStr for SubscribeSubject` in crate
`nattes` (`for i in 0..subject_parts.len()`), carried out on the token list
with the running index `i` and the total count `n`.  The `>` test is the
source's single flat condition
`part.contains('>') && part != ">" || i != subject_parts.len() - 1`,
which Rust parses as `(contains && not-exactly-gt) || (i != n-1)`. -/
def subscribeLoopNattes (n : Nat) : Nat → List Token → Except NatsError (List Token)
  | _, [] => .ok []
  | i, part :: rest =>
    if part.contains '*' ∧ part ≠ starTok then
      .error .InvalidSubscribeSubject
    else if (part.contains '>' ∧ part ≠ gtTok) ∨ i ≠ n - 1 then
      .error .InvalidSubscribeSubject
    else
      match subscribeLoopNattes n (i + 1) rest with
      | .ok r => .ok (part :: r)
      | .error e => .error e

/-- The token-validation loop of `impl FromStr for SubscribeSubject` in crate
`nattes-lib`: the `>` test is the nested form
`if part.contains('>') { if part != ">" || i != len - 1 { fail } }`. -/
def subscribeLoopLib (n : Nat) : Nat → List Token → Except NatsError (List Token)
  | _, [] => .ok []
  | i, part :: rest =>
    if part.contains '*' ∧ part ≠ starTok then
      .error .InvalidSubscribeSubject
    else if part.contains '>' ∧ (part ≠ gtTok ∨ i ≠ n - 1) then
      .error .InvalidSubscribeSubject
    else
      match subscribeLoopLib n (i + 1) rest with
      | .ok r => .ok (part :: r)
      | .error e => .error e

/-- Parsing, `impl FromStr for SubscribeSubject` in crate `nattes`: reject NUL/space
(with the reused `InvalidPublishSubject` error, as in the source), then run
the per-token validation loop. -/
def SubscribeSubject.fromStrNattes (s : List Char) : Except NatsError SubscribeSubject :=
  if s.contains nulChar || s.contains ' ' then
    .error .InvalidPublishSubject
  else
    match subscribeLoopNattes (splitDot s).length 0 (splitDot s) with
    | .ok r => .ok ⟨r⟩
    | .error e => .error e

/-- Parsing, `impl FromStr for SubscribeSubject` in crate `nattes-lib`. -/
def SubscribeSubject.fromStrLib (s : List Char) : Except NatsError SubscribeSubject :=
  if s.contains nulChar || s.contains ' ' then
    .error .InvalidPublishSubject
  else
    match subscribeLoopLib (splitDot s).length 0 (splitDot s) with
    | .ok r => .ok ⟨r⟩
    | .error e => .error e

/-- Matching, `SubscribeSubject::check_subject` (identical in both crates), as lockstep
recursion on the two token lists.  The source loops `i` over pattern indices:
at each `i` a `>` pattern token returns `true` when `subject.0.get(i)` is
`Some`, a `*` token skips to `i+1` when it is `Some`, and otherwise
`self.0.get(i) != subject.0.get(i)` returns `false` (this also fires when the
subject has run out, since `Some(_) != None`); after the loop the result is
`self.0.len() == subject.0.len()`. -/
def checkTokens : List Token → List Token → Bool
  | [], subj => subj.isEmpty
  | _ :: _, [] => false
  | p :: ps, s :: ss =>
    if p = gtTok then true
    else if p = starTok then checkTokens ps ss
    else if p = s then checkTokens ps ss
    else false

/-- Matching, `SubscribeSubject::check_subject` on the wrapped structures. -/
def SubscribeSubject.check_subject (pat : SubscribeSubject) (subj : PublishSubject) : Bool :=
  checkTokens pat.tokens subj.tokens

/-- Spec-side, index-based reading of one non-`>` step of the matching walk
(claim C3): at index `j` the walk continues iff the pattern token is `*`
(with a subject token present, which the contexts of use guarantee) or the
pattern token equals the subject token. -/
def stepOK (pat subj : List Token) (j : Nat) : Prop :=
  pat.getD j [] = starTok ∨ pat.getD j [] = subj.getD j []

/-- Spec-side, index-based reading of the whole matching walk (claim C3):
either some pattern index `k` holds `>` with a subject token present at `k`
and every earlier index passes its step, or the walk completes — no `>`
success, same number of tokens on both sides — with every index passing its
step. -/
def matchesSpec (pat subj : List Token) : Prop :=
  (∃ k, k < pat.length ∧ pat.getD k [] = gtTok ∧ k < subj.length ∧
    ∀ j, j < k → stepOK pat subj j) ∨
  (pat.length = subj.length ∧ (∀ j, j < pat.length → pat.getD j [] ≠ gtTok) ∧
    ∀ j, j < pat.length → stepOK pat subj j)

instance (pat subj : List Token) (j : Nat) : Decidable (stepOK pat subj j) :=
  inferInstanceAs (Decidable (_ ∨ _))

/-- One registry entry as seen by `publish`: the subscriber's identifier
(the `Uuid` key in crate `nattes`, modelled as a `Nat` drawn from a fresh
counter), its `SubscribeSubject`, and the state of its mpsc channel.  The
channel is inlined: `closed` is true once the receiving `Subscriber` handle
has been dropped (a `send` then returns `SendError`), and `queue` holds the
payloads accepted into the mailbox so far. -/
structure RegEntry where
  uuid : Nat
  pattern : List Token
  closed : Bool
  queue : List Msg
deriving DecidableEq, Repr

/-- The effect of `publish` on a single snapshot entry when no failure cuts
the loop short: a matching entry's mailbox receives exactly one copy of the
payload, a non-matching entry is untouched. -/
def deliverOne (subj : List Token) (m : Msg) (e : RegEntry) : RegEntry :=
  if checkTokens e.pattern subj then { e with queue := e.queue ++ [m] } else e

/-- The fanout loop of `Nattes::publish` (identical in both crates) over the
registry snapshot: for each entry whose pattern matches the subject, await
`sender.send(message.clone())`; the `?` on the send propagates the first
failure immediately, so entries after a failing one are not visited, while
sends already performed stand.  A send fails exactly when the channel is
closed.  Returns the error (if any) and the snapshot with the mailboxes
updated by the sends that happened. -/
def publishAux (subj : List Token) (m : Msg) : List RegEntry → Option NatsError × List RegEntry
  | [] => (none, [])
  | e :: rest =>
    if checkTokens e.pattern subj then
      if e.closed then
        (some .MpscError, e :: rest)
      else
        let r := publishAux subj m rest
        (r.1, { e with queue := e.queue ++ [m] } :: r.2)
    else
      let r := publishAux subj m rest
      (r.1, e :: r.2)

/-- Removal, `Nattes::unsubscribe` in crate `nattes`: `HashMap::remove(&uuid)`.  The
`HashMap<Uuid, SubscriberHandle>` is modelled as a list of entries whose
`uuid` fields play the key role; since a map holds at most one entry per
key, `remove` is removal of every entry carrying that key. -/
def removeUuid (reg : List RegEntry) (u : Nat) : List RegEntry :=
  reg.filter (fun e => e.uuid != u)

/-- The consumer-facing `Subscriber` struct of crate `nattes`: its `Uuid`,
its pattern, and the `nattes: Nattes` back-reference it will unsubscribe
from when dropped.  `Nattes` values are `Arc`-shared registries; a broker is
identified here by the id of its allocated registry, so `nattes : Nat`. -/
structure Subscr where
  uuid : Nat
  pattern : List Token
  nattes : Nat
deriving DecidableEq, Repr

/-- The heap of live `Nattes` registries (each `Nattes::new()` allocates a
fresh `Arc<Mutex<HashMap<..>>>`, so distinct ids mean distinct registries),
plus the fresh-id counters for registries and `Uuid`s. -/
structure World where
  brokers : List (Nat × List RegEntry)
  nextBroker : Nat
  nextUuid : Nat
deriving DecidableEq, Repr

/-- Allocation, `Nattes::new()` / `Default::default()`: allocate a fresh empty registry. -/
def newNattes (w : World) : World × Nat :=
  ({ w with
      brokers := w.brokers ++ [(w.nextBroker, [])]
      nextBroker := w.nextBroker + 1 },
   w.nextBroker)

/-- The registry currently held by broker `b`. -/
def regOf (w : World) (b : Nat) : List RegEntry :=
  (((w.brokers.find? (fun p => p.1 == b)).map Prod.snd).getD [])

/-- Replace the registry of broker `b`. -/
def setReg (w : World) (b : Nat) (reg : List RegEntry) : World :=
  { w with brokers := w.brokers.map (fun p => if p.1 = b then (p.1, reg) else p) }

/-- Subscription, `Nattes::subscribe` in crate `nattes`: create a channel, draw a fresh
`Uuid`, insert `{uuid, pattern, sender}` into `self`'s registry under the
lock, and return a `Subscriber { uuid, subject, channel: rx, nattes:
Nattes::new() }` — note that the handle's `nattes` field is a freshly
allocated empty broker, not `self`. -/
def subscribeW (w : World) (b : Nat) (pat : List Token) : World × Subscr :=
  let u := w.nextUuid
  let entry : RegEntry := ⟨u, pat, false, []⟩
  let w1 := { setReg w b (regOf w b ++ [entry]) with nextUuid := u + 1 }
  let wb2 := newNattes w1
  (wb2.1, ⟨u, pat, wb2.2⟩)

/-- Removal, `Nattes::unsubscribe`, applied to broker `b` of the world. -/
def unsubscribeW (w : World) (b : Nat) (u : Nat) : World :=
  setReg w b (removeUuid (regOf w b) u)

/-- Dropping the `Receiver` half of subscriber `u`'s channel closes it: every
registry entry holding the matching sender observes `closed`. -/
def closeChanW (w : World) (u : Nat) : World :=
  { w with
    brokers := w.brokers.map (fun p =>
      (p.1, p.2.map (fun e => if e.uuid = u then { e with closed := true } else e))) }

/-- Drop glue, `impl Drop for Subscriber` in crate `nattes`: the drop body runs
`self.nattes.unsubscribe(self.uuid)` (against the handle's own `nattes`
field), then the fields are dropped, which drops the `Receiver` and closes
the channel. -/
def dropSubscriber (w : World) (s : Subscr) : World :=
  closeChanW (unsubscribeW w s.nattes s.uuid) s.uuid

/-- Publishing, `Nattes::publish`, on broker `b`: snapshot the registry under the lock,
run the fanout loop outside it, and surface the first send failure. -/
def publishW (w : World) (b : Nat) (subj : List Token) (m : Msg) : Option NatsError × World :=
  let r := publishAux subj m (regOf w b)
  (r.1, setReg w b r.2)

end Nattes

deriving instance DecidableEq for Except

namespace Nattes

lemma stepOK_cons (p s : Token) (ps ss : List Token) (j : Nat) :
    stepOK (p :: ps) (s :: ss) (j + 1) ↔ stepOK ps ss j := by
  simp [stepOK]

lemma stepOK_zero (p s : Token) (ps ss : List Token) :
    stepOK (p :: ps) (s :: ss) 0 ↔ (p = starTok ∨ p = s) := by
  simp [stepOK]

/-- Dropping a matched head position (one that is not a `>` success and whose
step passes) preserves the spec-side matching predicate. -/
lemma matchesSpec_cons (p s : Token) (ps ss : List Token)
    (hgt : p ≠ gtTok) (h0 : p = starTok ∨ p = s) :
    matchesSpec (p :: ps) (s :: ss) ↔ matchesSpec ps ss := by
  constructor
  · rintro (⟨k, hk, hgtk, hks, hpre⟩ | ⟨hlen, hng, hall⟩)
    · match k with
      | 0 => exact absurd (by simpa using hgtk) hgt
      | k + 1 =>
        left
        refine ⟨k, by simpa using hk, by simpa using hgtk, by simpa using hks,
          fun j hj => ?_⟩
        have := hpre (j + 1) (by omega)
        rwa [stepOK_cons] at this
    · right
      refine ⟨by simpa using hlen, fun j hj => ?_, fun j hj => ?_⟩
      · have := hng (j + 1) (by simp; omega)
        simpa using this
      · have := hall (j + 1) (by simp; omega)
        rwa [stepOK_cons] at this
  · rintro (⟨k, hk, hgtk, hks, hpre⟩ | ⟨hlen, hng, hall⟩)
    · left
      refine ⟨k + 1, by simpa using hk, by simpa using hgtk, by simpa using hks,
        fun j hj => ?_⟩
      match j with
      | 0 => exact (stepOK_zero p s ps ss).mpr h0
      | j + 1 =>
        rw [stepOK_cons]
        exact hpre j (by omega)
    · right
      refine ⟨by simpa using hlen, fun j hj => ?_, fun j hj => ?_⟩
      · match j with
        | 0 => simpa using hgt
        | j + 1 =>
          have : j < ps.length := by simp at hj; omega
          simpa using hng j this
      · match j with
        | 0 => exact (stepOK_zero p s ps ss).mpr h0
        | j + 1 =>
          rw [stepOK_cons]
          exact hall j (by simp at hj; omega)

/-- The loop of `check_subject` agrees with the index-based spec-side
predicate on every pair of token lists. -/
lemma checkTokens_iff_matchesSpec (pat subj : List Token) :
    checkTokens pat subj = true ↔ matchesSpec pat subj := by
  induction pat generalizing subj with
  | nil =>
    cases subj with
    | nil =>
      simp only [checkTokens, List.isEmpty_nil, true_iff]
      exact Or.inr ⟨rfl, fun j hj => by simp at hj, fun j hj => by simp at hj⟩
    | cons s ss =>
      simp [checkTokens, matchesSpec]
  | cons p ps ih =>
    cases subj with
    | nil =>
      simp [checkTokens, matchesSpec]
    | cons s ss =>
      by_cases hgt : p = gtTok
      · have : checkTokens (p :: ps) (s :: ss) = true := by simp [checkTokens, hgt]
        rw [this]
        simp only [true_iff]
        exact Or.inl ⟨0, by simp, by simpa using hgt, by simp, fun j hj => by omega⟩
      · by_cases hstar : p = starTok
        · have : checkTokens (p :: ps) (s :: ss) = checkTokens ps ss := by
            simp [checkTokens, hgt, hstar, starTok, gtTok]
          rw [this, ih, matchesSpec_cons p s ps ss hgt (Or.inl hstar)]
        · by_cases heq : p = s
          · have hgt' : s ≠ gtTok := heq ▸ hgt
            have hstar' : s ≠ starTok := heq ▸ hstar
            have : checkTokens (p :: ps) (s :: ss) = checkTokens ps ss := by
              simp [checkTokens, heq, hgt', hstar']
            rw [this, ih, matchesSpec_cons p s ps ss hgt (Or.inr heq)]
          · have : checkTokens (p :: ps) (s :: ss) = false := by
              simp [checkTokens, hgt, hstar, heq]
            rw [this]
            simp only [Bool.false_eq_true, false_iff]
            rintro (⟨k, hk, hgtk, hks, hpre⟩ | ⟨hlen, hng, hall⟩)
            · match k with
              | 0 => exact hgt (by simpa using hgtk)
              | k + 1 =>
                have := (stepOK_zero p s ps ss).mp (hpre 0 (by omega))
                rcases this with h | h
                · exact hstar h
                · exact heq h
            · have := (stepOK_zero p s ps ss).mp (hall 0 (by simp))
              rcases this with h | h
              · exact hstar h
              · exact heq h

/-- Splitting on `.` always yields at least one token. -/
lemma splitDot_ne_nil (s : List Char) : splitDot s ≠ [] := by
  cases s with
  | nil => simp [splitDot]
  | cons c rest =>
    rw [splitDot]
    split
    · simp
    · split <;> simp

/-- Joining with `.` undoes splitting on `.` exactly. -/
lemma joinDot_splitDot (s : List Char) : joinDot (splitDot s) = s := by
  induction s with
  | nil => rfl
  | cons c rest ih =>
    rw [splitDot]
    by_cases hc : c = '.'
    · rw [if_pos hc]
      rcases h : splitDot rest with _ | ⟨t, ts⟩
      · exact absurd h (splitDot_ne_nil rest)
      · rw [h] at ih
        simp [joinDot, hc, ih]
    · rw [if_neg hc]
      rcases h : splitDot rest with _ | ⟨t, ts⟩
      · exact absurd h (splitDot_ne_nil rest)
      · rw [h] at ih
        cases ts with
        | nil =>
          simp only [joinDot] at ih ⊢
          rw [ih]
        | cons t2 ts2 =>
          simp only [joinDot] at ih ⊢
          rw [List.cons_append, ih]

/-- A successful `publish` pass (no send failed) updates the snapshot
entrywise: matching mailboxes each receive one copy, others are untouched. -/
lemma publishAux_none (subj : List Token) (m : Msg) :
    ∀ entries, (publishAux subj m entries).1 = none →
      (publishAux subj m entries).2 = entries.map (deliverOne subj m) := by
  intro entries
  induction entries with
  | nil => intro _; rfl
  | cons e rest ih =>
    intro h
    by_cases hm : checkTokens e.pattern subj = true
    · by_cases hc : e.closed = true
      · exfalso
        simp [publishAux, hm, hc] at h
      · have hc' : e.closed = false := by simpa using hc
        simp only [publishAux, hm, hc', if_true, Bool.false_eq_true, if_false] at h ⊢
        rw [List.map_cons, ih h, deliverOne, if_pos hm, hc']
    · have hm' : checkTokens e.pattern subj = false := by simpa using hm
      simp only [publishAux, hm', Bool.false_eq_true, if_false] at h ⊢
      rw [List.map_cons, ih h, deliverOne, hm']
      simp

/-- C1: the spec's scoped-release guarantee fails in the code.  `subscribe`
stores a freshly allocated empty broker (`nattes: Nattes::new()`) in the
returned `Subscriber`, so `Drop` unsubscribes from that empty broker: after
dropping the handle, the original broker's registry still contains the
identifier, and publishing a matching subject returns `MpscError` because
the dropped receiver closed the channel. -/
theorem drop_abandonment_bug :
    let w0 : World := ⟨[(0, [])], 1, 0⟩
    let ws := subscribeW w0 0 [['a']]
    let w2 := dropSubscriber ws.1 ws.2
    (regOf w2 0).map RegEntry.uuid = [0] ∧
      (publishW w2 0 [['a']] [7]).1 = some .MpscError := by decide

/-- C2: in crate `nattes`, the flat condition
`part.contains('>') && part != ">" || i != subject_parts.len() - 1`
parses as `(..&&..) || i != n-1`, so every token except the last fails the
test and every multi-token pattern is rejected: the literal-only pattern
`"a.b"` is refused, while the sibling crate `nattes-lib` (nested `if`s, the
behaviour the claim describes) accepts it. -/
theorem subscribe_parse_precedence_bug :
    SubscribeSubject.fromStrNattes ['a', '.', 'b'] = .error .InvalidSubscribeSubject ∧
    SubscribeSubject.fromStrLib ['a', '.', 'b'] = .ok ⟨[['a'], ['b']]⟩ ∧
    SubscribeSubject.fromStrLib ['a', '*', '.', 'b'] = .error .InvalidSubscribeSubject ∧
    SubscribeSubject.fromStrLib ['a', '.', '>', '.', 'b'] = .error .InvalidSubscribeSubject := by
  decide

/-- C3: `check_subject` walks pattern tokens by index — a `>` token succeeds
immediately iff the subject has a token at that index, a `*` token passes
its position iff the subject has a token there, a literal token requires
exact equality, and a completed walk succeeds iff both sides have the same
number of tokens: the loop is equivalent to the index-based predicate
`matchesSpec` stating exactly those conditions. -/
theorem check_subject_spec (pat subj : List Token) :
    (SubscribeSubject.mk pat).check_subject ⟨subj⟩ = true ↔ matchesSpec pat subj :=
  checkTokens_iff_matchesSpec pat subj

/-- C4 (counterexample): the claim "a pattern ending in `>` matches every
subject with at least `patternLength - 1` tokens" fails: `a.>` does not
match the one-token subject `a` (the `>` needs a subject token at its own
index), and it does not match `b.c` (the literal prefix must agree). -/
theorem gt_tail_counterexample :
    (([['a'], gtTok] : List Token).getLast? = some gtTok ∧
      ([['a']] : List Token).length ≥ ([['a'], gtTok] : List Token).length - 1 ∧
      checkTokens [['a'], gtTok] [['a']] = false) ∧
    (([['b'], ['c']] : List Token).length ≥ ([['a'], gtTok] : List Token).length - 1 ∧
      checkTokens [['a'], gtTok] [['b'], ['c']] = false) := by decide

/-- C4 (amended): a pattern whose last token is `>` matches every subject
that has at least as many tokens as the pattern and whose tokens before the
`>` position each pass their per-position step (pattern token `*`, or equal
tokens), regardless of the number or values of the subject's trailing
tokens. -/
theorem gt_tail_matches (pat subj : List Token) (hlast : pat.getLast? = some gtTok)
    (hlen : pat.length ≤ subj.length)
    (hpre : ∀ j, j < pat.length - 1 → stepOK pat subj j) :
    checkTokens pat subj = true := by
  induction pat generalizing subj with
  | nil => simp at hlast
  | cons p ps ih =>
    cases subj with
    | nil => simp at hlen
    | cons s ss =>
      cases ps with
      | nil =>
        have hp : p = gtTok := by simpa using hlast
        simp [checkTokens, hp]
      | cons q qs =>
        have hlast' : (q :: qs).getLast? = some gtTok := by
          rwa [List.getLast?_cons_cons] at hlast
        by_cases hgt : p = gtTok
        · simp [checkTokens, hgt]
        · have h0 : stepOK (p :: q :: qs) (s :: ss) 0 := hpre 0 (by simp)
          have h0' : p = starTok ∨ p = s := (stepOK_zero p s (q :: qs) ss).mp h0
          have ihh : checkTokens (q :: qs) ss = true := by
            refine ih ss hlast' (by simpa using hlen) (fun j hj => ?_)
            have := hpre (j + 1) (by simp at hj ⊢; omega)
            rwa [stepOK_cons] at this
          by_cases hstar : p = starTok
          · simp [checkTokens, hgt, hstar, ihh]
          · have hps : p = s := h0'.resolve_left hstar
            have hgt' : s ≠ gtTok := hps ▸ hgt
            have hstar' : s ≠ starTok := hps ▸ hstar
            simp [checkTokens, hps, hgt', hstar', ihh]

/-- C4 (witness): `a.>` matches `a.b.c`. -/
theorem gt_tail_matches_witness : checkTokens [['a'], gtTok] [['a'], ['b'], ['c']] = true :=
  gt_tail_matches [['a'], gtTok] [['a'], ['b'], ['c']] (by decide) (by decide) (by decide)

/-- C5: when the first failing matching subscriber in the snapshot is
reached, `publish` surfaces that delivery failure and stops: matching
entries before it each received one copy, the failing entry and everything
after it are untouched. -/
theorem publish_fail_fast (subj : List Token) (m : Msg) (pre post : List RegEntry)
    (e : RegEntry) (hm : checkTokens e.pattern subj = true) (hc : e.closed = true)
    (hpre : ∀ x ∈ pre, checkTokens x.pattern subj = true → x.closed = false) :
    publishAux subj m (pre ++ e :: post) =
      (some .MpscError, pre.map (deliverOne subj m) ++ e :: post) := by
  induction pre with
  | nil =>
    simp [publishAux, hm, hc]
  | cons x xs ih =>
    have ih' := ih (fun y hy hmy => hpre y (by simp [hy]) hmy)
    by_cases hmx : checkTokens x.pattern subj = true
    · have hox : x.closed = false := hpre x (by simp) hmx
      simp [publishAux, hmx, hox, ih', deliverOne]
    · have hmx' : checkTokens x.pattern subj = false := by simpa using hmx
      simp [publishAux, hmx', ih', deliverOne]

/-- C5 (witness): with an open matching subscriber before a closed matching
one and another open one after it, `publish` delivers to the first, fails on
the second, and skips the third. -/
theorem publish_fail_fast_witness :
    publishAux [['x']] [5]
        ([⟨0, [['x']], false, []⟩] ++ ⟨1, [['x']], true, []⟩ :: [⟨2, [['x']], false, []⟩]) =
      (some .MpscError,
        ([⟨0, [['x']], false, []⟩] : List RegEntry).map (deliverOne [['x']] [5]) ++
          ⟨1, [['x']], true, []⟩ :: [⟨2, [['x']], false, []⟩]) :=
  publish_fail_fast [['x']] [5] [⟨0, [['x']], false, []⟩] [⟨2, [['x']], false, []⟩]
    ⟨1, [['x']], true, []⟩ (by decide) (by decide) (by decide)

/-- C6: a `publish` call that returns success delivered exactly one copy of
the payload to the mailbox of every snapshot entry whose pattern matches
the subject and left every non-matching entry untouched. -/
theorem publish_success_delivery (subj : List Token) (m : Msg)
    (entries st : List RegEntry) (h : publishAux subj m entries = (none, st)) :
    st = entries.map (deliverOne subj m) := by
  have h1 : (publishAux subj m entries).1 = none := by rw [h]
  have h2 := publishAux_none subj m entries h1
  rw [h] at h2
  simpa using h2

/-- C6 (witness): scenario D — subscribers on the overlapping patterns
`x.*` and `x.y` each receive exactly one copy when `x.y` is published. -/
theorem publish_success_delivery_witness :
    ([⟨0, [['x'], starTok], false, [[5]]⟩, ⟨1, [['x'], ['y']], false, [[5]]⟩] :
        List RegEntry) =
      ([⟨0, [['x'], starTok], false, []⟩, ⟨1, [['x'], ['y']], false, []⟩] :
        List RegEntry).map (deliverOne [['x'], ['y']] [5]) :=
  publish_success_delivery [['x'], ['y']] [5]
    [⟨0, [['x'], starTok], false, []⟩, ⟨1, [['x'], ['y']], false, []⟩]
    [⟨0, [['x'], starTok], false, [[5]]⟩, ⟨1, [['x'], ['y']], false, [[5]]⟩] (by decide)

/-- C7: parsing a string free of `*`, `>`, NUL and space as a
`PublishSubject` succeeds, and joining the resulting tokens with `.` gives
back the original string. -/
theorem publish_subject_roundtrip (s : List Char)
    (h : (s.contains '*' || s.contains '>' || s.contains nulChar || s.contains ' ') = false) :
    ∃ p, PublishSubject.fromStr s = .ok p ∧ joinDot p.tokens = s := by
  refine ⟨⟨splitDot s⟩, ?_, joinDot_splitDot s⟩
  simp only [PublishSubject.fromStr, h, Bool.false_eq_true, if_false]

/-- C7 (witness): the round trip at `"a.b"`. -/
theorem publish_subject_roundtrip_witness :
    ∃ p, PublishSubject.fromStr ['a', '.', 'b'] = .ok p ∧
      joinDot p.tokens = ['a', '.', 'b'] :=
  publish_subject_roundtrip ['a', '.', 'b'] (by decide)

/-- C8: the literal subject `a.b`, reinterpreted as a pattern with identical
tokens, matches exactly that subject (not `a.c`, not a shorter or longer
subject) — but crate `nattes` rejects `parseSubscribePattern("a.b")` with
`InvalidSubscribeSubject` (the same precedence slip as in C2; sibling crate
`nattes-lib` accepts it and returns exactly the converted pattern), so the
claim's parse-success part fails on the code. -/
theorem literal_pattern_eval :
    (PublishSubject.toSubscribe ⟨[['a'], ['b']]⟩).check_subject ⟨[['a'], ['b']]⟩ = true ∧
    (PublishSubject.toSubscribe ⟨[['a'], ['b']]⟩).check_subject ⟨[['a'], ['c']]⟩ = false ∧
    (PublishSubject.toSubscribe ⟨[['a'], ['b']]⟩).check_subject ⟨[['a']]⟩ = false ∧
    (PublishSubject.toSubscribe ⟨[['a'], ['b']]⟩).check_subject
      ⟨[['a'], ['b'], ['c']]⟩ = false ∧
    SubscribeSubject.fromStrNattes (joinDot [['a'], ['b']]) =
      .error .InvalidSubscribeSubject ∧
    SubscribeSubject.fromStrLib (joinDot [['a'], ['b']]) =
      .ok (PublishSubject.toSubscribe ⟨[['a'], ['b']]⟩) := by decide

/-- C9: `unsubscribe` removes the identifier's registration if present
(afterwards no entry carries it), is a no-op if absent, and is idempotent
(it is a total function, so it never fails). -/
theorem unsubscribe_registry_spec (reg : List RegEntry) (u : Nat) :
    (∀ e ∈ removeUuid reg u, e.uuid ≠ u) ∧
    ((∀ e ∈ reg, e.uuid ≠ u) → removeUuid reg u = reg) ∧
    removeUuid (removeUuid reg u) u = removeUuid reg u := by
  refine ⟨fun e he => ?_, fun h => ?_, ?_⟩
  · have := (List.mem_filter.mp he).2
    simpa using this
  · refine List.filter_eq_self.mpr (fun a ha => ?_)
    simpa using h a ha
  · rw [removeUuid, removeUuid, List.filter_filter]
    simp [removeUuid]

/-- C9 (witness): removing an absent identifier is a no-op. -/
theorem unsubscribe_registry_spec_witness :
    removeUuid [⟨5, [['a']], false, []⟩] 3 = [⟨5, [['a']], false, []⟩] :=
  (unsubscribe_registry_spec [⟨5, [['a']], false, []⟩] 3).2.1 (by decide)

/-- C10: empty tokens are ordinary tokens — parsing accepts leading,
trailing and consecutive dots as well as the empty string (one empty
token), the pattern `>` matches the subject parsed from `""`, and `*`
passes a position whose subject token is empty. -/
theorem empty_token_semantics :
    PublishSubject.fromStr ['.', 'a'] = .ok ⟨[[], ['a']]⟩ ∧
    PublishSubject.fromStr ['a', '.'] = .ok ⟨[['a'], []]⟩ ∧
    PublishSubject.fromStr ['a', '.', '.', 'b'] = .ok ⟨[['a'], [], ['b']]⟩ ∧
    PublishSubject.fromStr [] = .ok ⟨[[]]⟩ ∧
    checkTokens [gtTok] [[]] = true ∧
    ∀ ps ss : List Token, checkTokens (starTok :: ps) ([] :: ss) = checkTokens ps ss := by
  refine ⟨by decide, by decide, by decide, by decide, by decide, fun ps ss => rfl⟩

end Nattes
